import Mathlib

/-!
Verification of the organizations directory service: a shallow embedding of
its geospatial search helpers, activity-tree traversal, and organization
aggregation, with theorems settling the specified properties.

Floating-point arithmetic of the source is modelled over the reals; the
relational store is modelled as explicit lists of rows, and the SQL queries
as the corresponding list operations.
-/

/-- Axis-aligned rectangle in latitude/longitude space (geo.BBox). -/
structure BBox where
  lat_min : ℝ
  lat_max : ℝ
  lon_min : ℝ
  lon_max : ℝ

/-- Degrees to radians, as math.radians. -/
noncomputable def radians (x : ℝ) : ℝ := x * Real.pi / 180

/-- The intermediate value a computed inside haversine_m. -/
noncomputable def haversineA (lat1 lon1 lat2 lon2 : ℝ) : ℝ :=
  Real.sin (radians (lat2 - lat1) / 2) ^ 2 +
    Real.cos (radians lat1) * Real.cos (radians lat2) *
      Real.sin (radians (lon2 - lon1) / 2) ^ 2

/-- Great-circle distance on a sphere of radius 6371000 m (geo.haversine_m). -/
noncomputable def haversine_m (lat1 lon1 lat2 lon2 : ℝ) : ℝ :=
  2 * 6371000 * Real.arcsin (Real.sqrt (haversineA lat1 lon1 lat2 lon2))

/-- Bounding box around a point for radius search (geo.bbox_for_radius). -/
noncomputable def bbox_for_radius (lat lon radius_m : ℝ) : BBox :=
  ⟨lat - radius_m / 111000, lat + radius_m / 111000,
    lon - radius_m / (111000 * max 0.1 (Real.cos (radians lat))),
    lon + radius_m / (111000 * max 0.1 (Real.cos (radians lat)))⟩

/-- Normalized box from two arbitrary corner points (geo.bbox_for_rectangle);
sorted of the two coordinates gives min then max. -/
noncomputable def bbox_for_rectangle (lat1 lon1 lat2 lon2 : ℝ) : BBox :=
  ⟨min lat1 lat2, max lat1 lat2, min lon1 lon2, max lon1 lon2⟩

/-- Membership of a point in a box, as Building.lat.between and
Building.lon.between of BuildingsRepository.buildings_in_bbox. -/
def inBBox (box : BBox) (lat lon : ℝ) : Prop :=
  box.lat_min ≤ lat ∧ lat ≤ box.lat_max ∧ box.lon_min ≤ lon ∧ lon ≤ box.lon_max

/-- Activity row (models.Activity): id, name, optional parent id. -/
structure Activity where
  id : ℤ
  name : String
  parent_id : Option ℤ
  deriving DecidableEq

/-- Organization row together with its phone numbers and the ids of its
linked activities (models.Organization with its two association tables). -/
structure Org where
  id : ℤ
  name : String
  building_id : ℤ
  phones : List String
  activity_ids : List ℤ
  deriving DecidableEq

/-- Building row (models.Building). -/
structure Building where
  id : ℤ
  address : String
  lat : ℝ
  lon : ℝ

/-- The relational store: the rows of the three tables. -/
structure Store where
  buildings : List Building
  orgs : List Org
  activities : List Activity

/-- Organizations whose building_id equals the given id
(OrgsRepository.orgs_in_building). -/
def orgs_in_building (orgs : List Org) (building_id : ℤ) : List Org :=
  orgs.filter (fun o => decide (o.building_id = building_id))

/-- Whether an activity row with the given id exists
(OrgsRepository.activity_exists). -/
def activity_exists (acts : List Activity) (activity_id : ℤ) : Bool :=
  acts.any (fun a => decide (a.id = activity_id))

/-- All rows whose parent_id is the given id: the recursive member of the
CTE joins activities a on a.parent_id = t.id. -/
def childrenOf (acts : List Activity) (pid : ℤ) : List Activity :=
  acts.filter (fun a => decide (a.parent_id = some pid))

/-- The non-recursive member of the CTE: rows with id = root_id, at depth 1. -/
def cteLevel1 (acts : List Activity) (root_id : ℤ) : List Activity :=
  acts.filter (fun a => decide (a.id = root_id))

/-- One expansion step of the CTE: all children of all rows of the previous
depth, with multiplicity (UNION ALL keeps duplicates). -/
def cteExpand (acts : List Activity) (frontier : List Activity) : List Activity :=
  frontier.flatMap (fun t => childrenOf acts t.id)

/-- OrgsRepository.activity_descendants_ids: the recursive CTE evaluated to
its fixpoint under the guard depth < 3, so exactly the rows of depth 1, 2
and 3, concatenated in depth order, projected to their ids. -/
def activity_descendants_ids (acts : List Activity) (root_id : ℤ) : List ℤ :=
  (cteLevel1 acts root_id ++ cteExpand acts (cteLevel1 acts root_id) ++
    cteExpand acts (cteExpand acts (cteLevel1 acts root_id))).map (fun a => a.id)

/-- OrgsRepository.orgs_by_activity_ids: early return on an empty id list
(no statement is executed, flag false), otherwise the join of organizations
with their matching activity links, made distinct. The Bool records whether
the store was queried. -/
def orgs_by_activity_ids (orgs : List Org) (activity_ids : List ℤ) :
    List Org × Bool :=
  if activity_ids.isEmpty then ([], false)
  else
    ((orgs.flatMap (fun o =>
      (o.activity_ids.filter (fun aid => decide (aid ∈ activity_ids))).map
        (fun _ => o))).dedup, true)

/-- OrgsService.organizations_by_activity: 404 when the activity id does not
exist, otherwise the organizations for the depth-limited descendant ids. -/
def organizations_by_activity (s : Store) (activity_id : ℤ) :
    Except Nat (List Org) :=
  if activity_exists s.activities activity_id then
    Except.ok (orgs_by_activity_ids s.orgs
      (activity_descendants_ids s.activities activity_id)).1
  else Except.error 404

/-- OrgsService.organizations_in_building: a plain filter by building id,
with no existence check on the building. -/
def organizations_in_building (s : Store) (building_id : ℤ) : List Org :=
  orgs_in_building s.orgs building_id

/-- Result shape of the geo searches (schemas.GeoSearchOut, with rows in
place of the serialized views). -/
structure GeoSearchOut where
  organizations : List Org
  buildings : List Building

/-- BuildingsRepository.buildings_in_bbox: rows whose coordinates lie
between the box bounds. -/
noncomputable def buildings_in_bbox (bs : List Building) (box : BBox) :
    List Building :=
  bs.filter (fun b => decide (box.lat_min ≤ b.lat ∧ b.lat ≤ box.lat_max ∧
    box.lon_min ≤ b.lon ∧ b.lon ≤ box.lon_max))

/-- OrgsService.geo_radius: bbox fetch, exact haversine filter, early empty
return, then one organization lookup per distinct surviving building id.
The second component records the building ids for which the organization
lookup was performed. -/
noncomputable def geo_radius (s : Store) (lat lon r_m : ℝ) :
    GeoSearchOut × List ℤ :=
  let box := bbox_for_radius lat lon r_m
  let buildings := buildings_in_bbox s.buildings box
  let near := buildings.filter (fun b => decide (haversine_m lat lon b.lat b.lon ≤ r_m))
  if near.isEmpty then (⟨[], []⟩, [])
  else
    let b_ids := (near.map (fun b => b.id)).dedup
    (⟨b_ids.flatMap (fun bid => orgs_in_building s.orgs bid), near⟩, b_ids)

/-- The public organization view (schemas.OrganizationOut): every field,
including activities, is required. -/
structure OrganizationOut where
  id : ℤ
  name : String
  building : Building
  phones : List String
  activities : List String

/-- Validation of an OrganizationOut payload, as pydantic model_validate on
the schema above: a missing required field is a validation error. -/
def model_validate_org (pid : ℤ) (pname : String) (pbuilding : Option Building)
    (pphones : List String) (pacts : Option (List String)) :
    Except String OrganizationOut :=
  match pbuilding with
  | none => Except.error "building: Field required"
  | some b =>
    match pacts with
    | none => Except.error "activities: Field required"
    | some acts => Except.ok ⟨pid, pname, b, pphones, acts⟩

/-- Names of the activities linked to an organization, in store order. -/
def activityNames (acts : List Activity) (o : Org) : List String :=
  (acts.filter (fun a => decide (a.id ∈ o.activity_ids))).map (fun a => a.name)

/-- Resolution of the building relationship of an organization. -/
def findBuilding (bs : List Building) (bid : ℤ) : Option Building :=
  bs.find? (fun b => decide (b.id = bid))

/-- api.org_to_out: the payload passed to model_validate includes the
activities field. -/
def org_to_out (s : Store) (o : Org) : Except String OrganizationOut :=
  model_validate_org o.id o.name (findBuilding s.buildings o.building_id) o.phones
    (some (activityNames s.activities o))

/-- The payload built inside api.search_organizations: identical to
org_to_out except that the activities key is absent. -/
def search_payload_out (s : Store) (o : Org) : Except String OrganizationOut :=
  model_validate_org o.id o.name (findBuilding s.buildings o.building_id) o.phones none

/-- Whether needle occurs as a contiguous run inside the second list. -/
def containsSub (needle : List Char) : List Char → Bool
  | [] => needle.isEmpty
  | c :: t => needle.isPrefixOf (c :: t) || containsSub needle t

/-- Lowering of an ASCII upper-case letter, the case folding performed by
the ILIKE comparison. -/
def asciiLower (c : Char) : Char :=
  if 65 ≤ c.toNat ∧ c.toNat ≤ 90 then Char.ofNat (c.toNat + 32) else c

/-- The ILIKE percent-pattern match of the search query: case-insensitive
substring containment. -/
def ilike_contains (oname q : String) : Bool :=
  containsSub (q.toList.map asciiLower) (oname.toList.map asciiLower)

/-- OrgsRepository.search_orgs_by_name: rows whose name matches the
case-insensitive substring pattern. -/
def search_orgs_by_name (orgs : List Org) (q : String) : List Org :=
  orgs.filter (fun o => ilike_contains o.name q)

/-- The list comprehension of api.search_organizations: payloads are
validated left to right and the first validation error propagates. -/
def mapValidate (f : Org → Except String OrganizationOut) :
    List Org → Except String (List OrganizationOut)
  | [] => Except.ok []
  | o :: rest =>
    match f o with
    | Except.error e => Except.error e
    | Except.ok v =>
      match mapValidate f rest with
      | Except.error e => Except.error e
      | Except.ok vs => Except.ok (v :: vs)

/-- api.search_organizations: match by case-insensitive substring, then
build each payload without the activities field and validate it. -/
def search_organizations (s : Store) (q : String) :
    Except String (List OrganizationOut) :=
  mapValidate (search_payload_out s) (search_orgs_by_name s.orgs q)

/-- The rows produced by the CTE at a given depth: depth 1 holds the rows
with id = root_id, and a row is at depth k + 1 when its parent_id points at
the id of some row at depth k. -/
def AtRow (acts : List Activity) (root_id : ℤ) : Nat → Activity → Prop
  | 0, _ => False
  | 1, a => a ∈ acts ∧ a.id = root_id
  | k + 2, a => a ∈ acts ∧
      ∃ p : Activity, AtRow acts root_id (k + 1) p ∧ a.parent_id = some p.id

/-- An id sits at a given tree level below the root when some row at that
depth carries it. -/
def AtLevel (acts : List Activity) (root_id : ℤ) (x : ℤ) (k : Nat) : Prop :=
  ∃ a : Activity, AtRow acts root_id k a ∧ a.id = x

/-- The child-to-parent link relation of the stored rows. -/
def ParentLink (acts : List Activity) (child parent : ℤ) : Prop :=
  ∃ a ∈ acts, a.id = child ∧ a.parent_id = some parent

/-- Sample activity rows: a single chain of four levels below root id 1. -/
def sampleActs : List Activity :=
  [⟨1, "food", none⟩, ⟨2, "meat", some 1⟩, ⟨3, "beef", some 2⟩, ⟨4, "steak", some 3⟩]

/-- Sample activity rows forming a two-node parent cycle. -/
def cycleActs : List Activity :=
  [⟨1, "a", some 2⟩, ⟨2, "b", some 1⟩]

/-- Sample store holding only the four-level activity chain. -/
def sampleStore : Store := ⟨[], [], sampleActs⟩

/-- Sample store with one building and one organization in it, satisfying
referential integrity. -/
def fkStore : Store :=
  ⟨[⟨10, "Main street 1", 0, 0⟩], [⟨1, "Best Cafe Ever", 10, ["123"], [1]⟩],
    sampleActs⟩

lemma sin_sq_sub_swap (x y : ℝ) :
    Real.sin ((x - y) * Real.pi / 180 / 2) ^ 2 =
      Real.sin ((y - x) * Real.pi / 180 / 2) ^ 2 := by
  rw [show (x - y) * Real.pi / 180 / 2 = -((y - x) * Real.pi / 180 / 2) by ring,
    Real.sin_neg]
  ring

lemma haversineA_symm (lat1 lon1 lat2 lon2 : ℝ) :
    haversineA lat1 lon1 lat2 lon2 = haversineA lat2 lon2 lat1 lon1 := by
  unfold haversineA radians
  rw [sin_sq_sub_swap lat2 lat1, sin_sq_sub_swap lon2 lon1]
  ring

lemma haversineA_self (lat lon : ℝ) : haversineA lat lon lat lon = 0 := by
  unfold haversineA radians
  simp

lemma haversine_m_self (lat lon : ℝ) : haversine_m lat lon lat lon = 0 := by
  unfold haversine_m
  rw [haversineA_self]
  simp

/-- C9: the haversine distance is symmetric in its two points and zero on
identical points, and the rectangle bounding box is unchanged when the two
corner points are swapped. -/
theorem C9_haversine_symm_self_and_rect_swap (lat1 lon1 lat2 lon2 : ℝ) :
    haversine_m lat1 lon1 lat2 lon2 = haversine_m lat2 lon2 lat1 lon1 ∧
      haversine_m lat1 lon1 lat1 lon1 = 0 ∧
      bbox_for_rectangle lat1 lon1 lat2 lon2 = bbox_for_rectangle lat2 lon2 lat1 lon1 := by
  refine ⟨?_, haversine_m_self lat1 lon1, ?_⟩
  · unfold haversine_m
    rw [haversineA_symm]
  · unfold bbox_for_rectangle
    rw [min_comm lat1 lat2, max_comm lat1 lat2, min_comm lon1 lon2, max_comm lon1 lon2]

lemma radians_sub (x y : ℝ) : radians (x - y) = radians x - radians y := by
  unfold radians
  ring

lemma haversineA_eq (lat1 lon1 lat2 lon2 : ℝ) :
    haversineA lat1 lon1 lat2 lon2 =
      1 / 2 - Real.cos (radians lat2 - radians lat1) / 2 +
        Real.cos (radians lat1) * Real.cos (radians lat2) *
          Real.sin (radians (lon2 - lon1) / 2) ^ 2 := by
  unfold haversineA
  rw [Real.sin_sq_eq_half_sub,
    show 2 * (radians (lat2 - lat1) / 2) = radians (lat2 - lat1) by ring, radians_sub]

lemma haversineA_nonneg (lat1 lon1 lat2 lon2 : ℝ) :
    0 ≤ haversineA lat1 lon1 lat2 lon2 := by
  rw [haversineA_eq]
  have hc1 : Real.cos (radians lat2 - radians lat1) =
      Real.cos (radians lat2) * Real.cos (radians lat1) +
        Real.sin (radians lat2) * Real.sin (radians lat1) := Real.cos_sub _ _
  have hc2 : Real.cos (radians lat1 + radians lat2) =
      Real.cos (radians lat1) * Real.cos (radians lat2) -
        Real.sin (radians lat1) * Real.sin (radians lat2) := Real.cos_add _ _
  have hb1 : Real.cos (radians lat2 - radians lat1) ≤ 1 := Real.cos_le_one _
  have hb2 : -1 ≤ Real.cos (radians lat1 + radians lat2) := Real.neg_one_le_cos _
  have hs0 : 0 ≤ Real.sin (radians (lon2 - lon1) / 2) ^ 2 := sq_nonneg _
  have hs1 : Real.sin (radians (lon2 - lon1) / 2) ^ 2 ≤ 1 := Real.sin_sq_le_one _
  rcases le_or_lt 0 (Real.cos (radians lat1) * Real.cos (radians lat2)) with hc | hc
  · nlinarith [mul_nonneg hc hs0]
  · nlinarith [mul_nonneg (le_of_lt (neg_pos.mpr hc))
      (by linarith : (0:ℝ) ≤ 1 - Real.sin (radians (lon2 - lon1) / 2) ^ 2)]

lemma haversineA_le_one (lat1 lon1 lat2 lon2 : ℝ) :
    haversineA lat1 lon1 lat2 lon2 ≤ 1 := by
  rw [haversineA_eq]
  have hc1 : Real.cos (radians lat2 - radians lat1) =
      Real.cos (radians lat2) * Real.cos (radians lat1) +
        Real.sin (radians lat2) * Real.sin (radians lat1) := Real.cos_sub _ _
  have hc2 : Real.cos (radians lat1 + radians lat2) =
      Real.cos (radians lat1) * Real.cos (radians lat2) -
        Real.sin (radians lat1) * Real.sin (radians lat2) := Real.cos_add _ _
  have hb1 : -1 ≤ Real.cos (radians lat2 - radians lat1) := Real.neg_one_le_cos _
  have hb3 : Real.cos (radians lat1 + radians lat2) ≤ 1 := Real.cos_le_one _
  have hs0 : 0 ≤ Real.sin (radians (lon2 - lon1) / 2) ^ 2 := sq_nonneg _
  have hs1 : Real.sin (radians (lon2 - lon1) / 2) ^ 2 ≤ 1 := Real.sin_sq_le_one _
  rcases le_or_lt 0 (Real.cos (radians lat1) * Real.cos (radians lat2)) with hc | hc
  · nlinarith [mul_nonneg hc
      (by linarith : (0:ℝ) ≤ 1 - Real.sin (radians (lon2 - lon1) / 2) ^ 2)]
  · nlinarith [mul_nonneg (le_of_lt (neg_pos.mpr hc)) hs0]

lemma haversine_m_nonneg (lat1 lon1 lat2 lon2 : ℝ) :
    0 ≤ haversine_m lat1 lon1 lat2 lon2 := by
  unfold haversine_m
  have h : 0 ≤ Real.arcsin (Real.sqrt (haversineA lat1 lon1 lat2 lon2)) :=
    Real.arcsin_nonneg.mpr (Real.sqrt_nonneg _)
  nlinarith

lemma haversine_m_le (lat1 lon1 lat2 lon2 : ℝ) :
    haversine_m lat1 lon1 lat2 lon2 ≤ Real.pi * 6371000 := by
  unfold haversine_m
  have h : Real.arcsin (Real.sqrt (haversineA lat1 lon1 lat2 lon2)) ≤ Real.pi / 2 :=
    Real.arcsin_le_pi_div_two _
  nlinarith

/-- C10 amended: for all real latitudes and longitudes, the intermediate value
a of haversine_m lies in the closed interval from 0 to 1 (so both the square
root and the inverse sine are within their domains), and the returned distance
lies between 0 and pi times 6371000; this holds even for latitudes outside
the range from -90 to 90, where the product of the two cosines can be
negative: the negative term is always dominated. -/
theorem C10_haversineA_unit_interval_dist_bounded (lat1 lon1 lat2 lon2 : ℝ) :
    0 ≤ haversineA lat1 lon1 lat2 lon2 ∧ haversineA lat1 lon1 lat2 lon2 ≤ 1 ∧
      0 ≤ haversine_m lat1 lon1 lat2 lon2 ∧
      haversine_m lat1 lon1 lat2 lon2 ≤ Real.pi * 6371000 :=
  ⟨haversineA_nonneg _ _ _ _, haversineA_le_one _ _ _ _,
    haversine_m_nonneg _ _ _ _, haversine_m_le _ _ _ _⟩

/-- C10 counterexample: at latitudes 100 and 0 (the first outside the range
from -90 to 90) with longitudes 0 and 180, the product of the two cosines is
negative, yet the intermediate value a still lies in the unit interval: the
claim that the guard fails outside the valid latitude range is false. -/
theorem C10_counterexample_guard_holds_outside_range :
    Real.cos (radians 100) * Real.cos (radians 0) < 0 ∧
      0 ≤ haversineA 100 0 0 180 ∧ haversineA 100 0 0 180 ≤ 1 := by
  refine ⟨?_, haversineA_nonneg 100 0 0 180, haversineA_le_one 100 0 0 180⟩
  have h0 : radians (0:ℝ) = 0 := by
    unfold radians
    ring
  rw [h0, Real.cos_zero, mul_one]
  have hpi := Real.pi_pos
  apply Real.cos_neg_of_pi_div_two_lt_of_lt
  · unfold radians
    nlinarith
  · unfold radians
    nlinarith

lemma cos_radians_nonneg {lat : ℝ} (h1 : -90 ≤ lat) (h2 : lat ≤ 90) :
    0 ≤ Real.cos (radians lat) := by
  have hpi := Real.pi_pos
  apply Real.cos_nonneg_of_mem_Icc
  constructor
  · unfold radians
    nlinarith
  · unfold radians
    nlinarith

lemma haversine_m_ge_lat_sep (lat lon plat plon : ℝ)
    (h1 : -90 ≤ lat) (h2 : lat ≤ 90) (h3 : -90 ≤ plat) (h4 : plat ≤ 90) :
    111000 * |plat - lat| ≤ haversine_m lat lon plat plon := by
  have hpi := Real.pi_pos
  have hcos1 : 0 ≤ Real.cos (radians lat) := cos_radians_nonneg h1 h2
  have hcos2 : 0 ≤ Real.cos (radians plat) := cos_radians_nonneg h3 h4
  have ha : Real.sin (radians (plat - lat) / 2) ^ 2 ≤ haversineA lat lon plat plon := by
    unfold haversineA
    have h0 := mul_nonneg (mul_nonneg hcos1 hcos2)
      (sq_nonneg (Real.sin (radians (plon - lon) / 2)))
    linarith
  have hsqrt : |Real.sin (radians (plat - lat) / 2)| ≤
      Real.sqrt (haversineA lat lon plat plon) := by
    rw [← Real.sqrt_sq_eq_abs]
    exact Real.sqrt_le_sqrt ha
  set x := radians (plat - lat) / 2 with hx
  have hxval : x = (plat - lat) * (Real.pi / 360) := by
    rw [hx]
    unfold radians
    ring
  have hxabs : |x| = |plat - lat| * (Real.pi / 360) := by
    rw [hxval, abs_mul, abs_of_pos (by positivity : (0:ℝ) < Real.pi / 360)]
  have hdle : |plat - lat| ≤ 180 := by
    rw [abs_le]
    constructor <;> linarith
  have hxle : |x| ≤ Real.pi / 2 := by
    rw [hxabs]
    nlinarith [abs_nonneg (plat - lat)]
  have hsabs : |Real.sin x| = Real.sin |x| := by
    rcases le_or_lt 0 x with h | h
    · rw [abs_of_nonneg h, abs_of_nonneg (Real.sin_nonneg_of_nonneg_of_le_pi h
        (le_trans (le_trans (le_abs_self x) hxle) (by linarith)))]
    · have hnx : -Real.pi ≤ x := by
        have := neg_abs_le x
        linarith
      have hsx : Real.sin x ≤ 0 :=
        Real.sin_nonpos_of_nonnpos_of_neg_pi_le (le_of_lt h) hnx
      rw [abs_of_nonpos hsx, abs_of_neg h, Real.sin_neg]
  have harc : |x| ≤ Real.arcsin (Real.sqrt (haversineA lat lon plat plon)) := by
    have hmono := Real.monotone_arcsin hsqrt
    rw [hsabs, Real.arcsin_sin (by linarith [abs_nonneg x]) hxle] at hmono
    exact hmono
  rw [hxabs] at harc
  unfold haversine_m
  nlinarith [Real.pi_gt_d2, mul_nonneg
    (by linarith [Real.pi_gt_d2] : (0:ℝ) ≤ Real.pi - 3.14) (abs_nonneg (plat - lat))]

/-- C1 amended: for a radius r greater than 0 and latitudes in the valid
range, every point within haversine distance r of the center has its latitude
inside the latitude band of bbox_for_radius; the full box membership fails in
general, because the clamped longitude divisor makes the longitude band too
narrow near the poles (see the counterexample). -/
theorem C1_bbox_radius_latitude_band (lat lon r plat plon : ℝ)
    (hlat1 : -90 ≤ lat) (hlat2 : lat ≤ 90) (hplat1 : -90 ≤ plat) (hplat2 : plat ≤ 90)
    (_hr : 0 < r) (hdist : haversine_m lat lon plat plon ≤ r) :
    (bbox_for_radius lat lon r).lat_min ≤ plat ∧
      plat ≤ (bbox_for_radius lat lon r).lat_max := by
  have h := haversine_m_ge_lat_sep lat lon plat plon hlat1 hlat2 hplat1 hplat2
  have habs : |plat - lat| ≤ r / 111000 := by
    rw [le_div_iff₀ (by norm_num : (0:ℝ) < 111000)]
    linarith
  have hb := abs_le.mp habs
  constructor
  · show lat - r / 111000 ≤ plat
    linarith [hb.1]
  · show plat ≤ lat + r / 111000
    linarith [hb.2]

/-- C1 witness: the latitude band theorem applied at center and point both at
the origin with radius 1. -/
theorem C1_bbox_radius_latitude_band_witness :
    ((-90 ≤ (0:ℝ)) ∧ ((0:ℝ) ≤ 90) ∧ ((0:ℝ) < 1) ∧ haversine_m 0 0 0 0 ≤ 1) ∧
      ((bbox_for_radius 0 0 1).lat_min ≤ 0 ∧ (0:ℝ) ≤ (bbox_for_radius 0 0 1).lat_max) := by
  have hd : haversine_m 0 0 0 0 ≤ 1 := by
    rw [haversine_m_self]
    norm_num
  exact ⟨⟨by norm_num, by norm_num, by norm_num, hd⟩,
    C1_bbox_radius_latitude_band 0 0 1 0 0 (by norm_num) (by norm_num) (by norm_num)
      (by norm_num) (by norm_num) hd⟩

/-- C1 counterexample: with center at the pole (latitude 90, longitude 0) and
radius 120000 m, the point at latitude 89 and longitude 180 is within true
haversine distance of the center (about 111195 m) but lies outside the box
returned by bbox_for_radius, whose clamped longitude half-width is about
10.8 degrees: the box is not a superset of the true circle. -/
theorem C1_counterexample_true_match_outside_bbox :
    (0:ℝ) < 120000 ∧ haversine_m 90 0 89 180 ≤ 120000 ∧
      ¬ inBBox (bbox_for_radius 90 0 120000) 89 180 := by
  have hpi := Real.pi_pos
  have hrad90 : radians (90:ℝ) = Real.pi / 2 := by
    unfold radians
    ring
  refine ⟨by norm_num, ?_, ?_⟩
  · have hA : haversineA 90 0 89 180 = Real.sin (Real.pi / 360) ^ 2 := by
      unfold haversineA
      rw [hrad90, Real.cos_pi_div_two,
        show radians ((89:ℝ) - 90) / 2 = -(Real.pi / 360) by unfold radians; ring,
        Real.sin_neg]
      ring
    unfold haversine_m
    rw [hA, Real.sqrt_sq (Real.sin_nonneg_of_nonneg_of_le_pi (by positivity)
      (by linarith)), Real.arcsin_sin (by linarith) (by linarith)]
    linarith [Real.pi_lt_d2]
  · intro h
    simp only [inBBox, bbox_for_radius] at h
    obtain ⟨-, -, -, h4⟩ := h
    rw [hrad90, Real.cos_pi_div_two,
      max_eq_left (by norm_num : (0:ℝ) ≤ 0.1)] at h4
    norm_num at h4

lemma mem_cteLevel1 {acts : List Activity} {root_id : ℤ} {a : Activity} :
    a ∈ cteLevel1 acts root_id ↔ AtRow acts root_id 1 a := by
  unfold cteLevel1
  simp [List.mem_filter, AtRow]

lemma mem_cteExpand {acts f : List Activity} {a : Activity} :
    a ∈ cteExpand acts f ↔ ∃ t ∈ f, a ∈ acts ∧ a.parent_id = some t.id := by
  unfold cteExpand childrenOf
  simp [List.mem_flatMap, List.mem_filter]

lemma mem_cteExpand_level {acts : List Activity} {root_id : ℤ} (k : ℕ)
    (f : List Activity) (hf : ∀ t, t ∈ f ↔ AtRow acts root_id (k + 1) t)
    (a : Activity) :
    a ∈ cteExpand acts f ↔ AtRow acts root_id (k + 2) a := by
  rw [mem_cteExpand]
  constructor
  · rintro ⟨t, ht, ha, hp⟩
    exact ⟨ha, t, (hf t).mp ht, hp⟩
  · rintro ⟨ha, p, hp, hpid⟩
    exact ⟨p, (hf p).mpr hp, ha, hpid⟩

lemma mem_level1_iff (acts : List Activity) (root_id : ℤ) :
    ∀ t, t ∈ cteLevel1 acts root_id ↔ AtRow acts root_id 1 t :=
  fun _ => mem_cteLevel1

lemma mem_level2_iff (acts : List Activity) (root_id : ℤ) :
    ∀ t, t ∈ cteExpand acts (cteLevel1 acts root_id) ↔ AtRow acts root_id 2 t :=
  fun t => mem_cteExpand_level 0 _ (mem_level1_iff acts root_id) t

lemma mem_level3_iff (acts : List Activity) (root_id : ℤ) :
    ∀ t, t ∈ cteExpand acts (cteExpand acts (cteLevel1 acts root_id)) ↔
      AtRow acts root_id 3 t :=
  fun t => mem_cteExpand_level 1 _ (mem_level2_iff acts root_id) t

lemma mem_descendants_iff {acts : List Activity} {root_id x : ℤ} :
    x ∈ activity_descendants_ids acts root_id ↔
      AtLevel acts root_id x 1 ∨ AtLevel acts root_id x 2 ∨ AtLevel acts root_id x 3 := by
  unfold activity_descendants_ids AtLevel
  simp only [List.mem_map, List.mem_append]
  constructor
  · rintro ⟨a, (h | h) | h, rfl⟩
    · exact Or.inl ⟨a, mem_cteLevel1.mp h, rfl⟩
    · exact Or.inr (Or.inl ⟨a, (mem_level2_iff acts root_id a).mp h, rfl⟩)
    · exact Or.inr (Or.inr ⟨a, (mem_level3_iff acts root_id a).mp h, rfl⟩)
  · rintro (⟨a, h, rfl⟩ | ⟨a, h, rfl⟩ | ⟨a, h, rfl⟩)
    · exact ⟨a, Or.inl (Or.inl (mem_cteLevel1.mpr h)), rfl⟩
    · exact ⟨a, Or.inl (Or.inr ((mem_level2_iff acts root_id a).mpr h)), rfl⟩
    · exact ⟨a, Or.inr ((mem_level3_iff acts root_id a).mpr h), rfl⟩

lemma AtRow_mem {acts : List Activity} {root_id : ℤ} :
    ∀ {k : ℕ} {a : Activity}, AtRow acts root_id k a → 1 ≤ k → a ∈ acts := by
  intro k a h hk
  match k, h with
  | 1, h => exact h.1
  | k + 2, h => exact h.1

/-- C3: for an existing root activity id, the depth-limited descendant list
contains the root itself, contains every id sitting at tree level 2 or 3
below the root, and excludes every id all of whose levels are 4 or deeper. -/
theorem C3_descendants_depth_window (acts : List Activity) (root_id : ℤ) :
    (activity_exists acts root_id = true →
      root_id ∈ activity_descendants_ids acts root_id) ∧
    (∀ (x : ℤ) (k : ℕ), 1 ≤ k → k ≤ 3 → AtLevel acts root_id x k →
      x ∈ activity_descendants_ids acts root_id) ∧
    (∀ x : ℤ, (∀ k : ℕ, AtLevel acts root_id x k → 4 ≤ k) →
      x ∉ activity_descendants_ids acts root_id) := by
  refine ⟨?_, ?_, ?_⟩
  · intro h
    unfold activity_exists at h
    rw [List.any_eq_true] at h
    obtain ⟨a, ha, haid⟩ := h
    have haid' : a.id = root_id := of_decide_eq_true haid
    exact mem_descendants_iff.mpr (Or.inl ⟨a, ⟨ha, haid'⟩, haid'⟩)
  · intro x k hk1 hk3 hat
    rw [mem_descendants_iff]
    interval_cases k
    · exact Or.inl hat
    · exact Or.inr (Or.inl hat)
    · exact Or.inr (Or.inr hat)
  · intro x hmin hmem
    rcases mem_descendants_iff.mp hmem with h | h | h
    · exact absurd (hmin 1 h) (by norm_num)
    · exact absurd (hmin 2 h) (by norm_num)
    · exact absurd (hmin 3 h) (by norm_num)

/-- C3 witness: on the four-level chain, the theorem yields that the root id
1 is in the result, that id 2 (level 2) is in the result, and that id 99,
which sits at no level at all, is not. -/
theorem C3_descendants_depth_window_witness :
    activity_exists sampleActs 1 = true ∧
      (1 : ℤ) ∈ activity_descendants_ids sampleActs 1 ∧
      AtLevel sampleActs 1 2 2 ∧
      (2 : ℤ) ∈ activity_descendants_ids sampleActs 1 ∧
      (99 : ℤ) ∉ activity_descendants_ids sampleActs 1 := by
  have hex : activity_exists sampleActs 1 = true := by decide
  have hlvl : AtLevel sampleActs 1 2 2 :=
    ⟨⟨2, "meat", some 1⟩, ⟨by decide, ⟨1, "food", none⟩, ⟨by decide, rfl⟩, rfl⟩, rfl⟩
  have h99 : ∀ k : ℕ, AtLevel sampleActs 1 99 k → 4 ≤ k := by
    rintro k ⟨a, hrow, haid⟩
    match k, hrow with
    | 0, hrow => exact hrow.elim
    | k + 1, hrow =>
      have ha : a ∈ sampleActs := AtRow_mem hrow (Nat.le_add_left 1 k)
      simp only [sampleActs, List.mem_cons, List.not_mem_nil, or_false] at ha
      rcases ha with rfl | rfl | rfl | rfl <;> simp at haid
  exact ⟨hex, (C3_descendants_depth_window sampleActs 1).1 hex,
    hlvl, (C3_descendants_depth_window sampleActs 1).2.1 2 2 (by norm_num) (by norm_num) hlvl,
    (C3_descendants_depth_window sampleActs 1).2.2 99 h99⟩

/-- C4 counterexample: on the malformed two-node parent cycle the traversal
does terminate, but the returned list is 1, 2, 1 and so contains the root id
twice: the duplicate-free part of the claim is false on cyclic data. -/
theorem C4_counterexample_cycle_duplicates :
    activity_descendants_ids cycleActs 1 = [1, 2, 1] ∧
      ¬ (activity_descendants_ids cycleActs 1).Nodup := by
  constructor
  · rfl
  · decide

lemma acts_id_inj {acts : List Activity}
    (hids : (acts.map (fun a => a.id)).Nodup) :
    ∀ a ∈ acts, ∀ b ∈ acts, a.id = b.id → a = b :=
  List.inj_on_of_nodup_map hids

lemma cteLevel1_ids_nodup {acts : List Activity} {root_id : ℤ}
    (hids : (acts.map (fun a => a.id)).Nodup) :
    ((cteLevel1 acts root_id).map (fun a => a.id)).Nodup :=
  List.Nodup.sublist ((List.filter_sublist acts).map _) hids

lemma cteExpand_ids_nodup {acts : List Activity}
    (hids : (acts.map (fun a => a.id)).Nodup) {f : List Activity}
    (hf : (f.map (fun a => a.id)).Nodup) :
    ((cteExpand acts f).map (fun a => a.id)).Nodup := by
  unfold cteExpand
  rw [List.map_flatMap, List.nodup_flatMap]
  constructor
  · intro t _
    exact List.Nodup.sublist ((List.filter_sublist acts).map _) hids
  · have hptw : f.Pairwise (fun a b => a.id ≠ b.id) := List.pairwise_map.mp hf
    apply hptw.imp
    intro a b hab
    simp only [Function.onFun]
    intro x hxa hxb
    obtain ⟨a1, ha1, rfl⟩ := List.mem_map.mp hxa
    obtain ⟨a2, ha2, hid⟩ := List.mem_map.mp hxb
    unfold childrenOf at ha1 ha2
    rw [List.mem_filter] at ha1 ha2
    have e1 : a1.parent_id = some a.id := of_decide_eq_true ha1.2
    have e2 : a2.parent_id = some b.id := of_decide_eq_true ha2.2
    have heq : a2 = a1 := acts_id_inj hids a2 ha2.1 a1 ha1.1 hid
    rw [heq, e1] at e2
    exact hab (Option.some_injective ℤ e2)

lemma AtRow_rank {acts : List Activity} {root_id : ℤ} (rank : ℤ → ℕ)
    (hrank : ∀ c p : ℤ, ParentLink acts c p → rank c = rank p + 1) :
    ∀ (k : ℕ) (a : Activity), AtRow acts root_id (k + 1) a →
      rank a.id = rank root_id + k := by
  intro k
  induction k with
  | zero =>
    intro a h
    obtain ⟨-, h2⟩ := h
    rw [h2]
    omega
  | succ k ih =>
    intro a h
    obtain ⟨ha, p, hp, hpid⟩ := h
    have h2 := hrank a.id p.id ⟨a, ha, rfl, hpid⟩
    have h3 := ih p hp
    omega

/-- C4 amended: the traversal is a total bounded computation, hence it
terminates on any data, including cyclic parent links; and on well-formed
data — rows with pairwise distinct ids whose parent relation is graded by a
depth function, which is exactly acyclicity for a forest — the returned list
has no duplicate ids. On cyclic data duplicates do occur (see the
counterexample). -/
theorem C4_descendants_nodup_on_forest (acts : List Activity) (root_id : ℤ)
    (hids : (acts.map (fun a => a.id)).Nodup)
    (hrank : ∃ rank : ℤ → ℕ, ∀ c p : ℤ, ParentLink acts c p →
      rank c = rank p + 1) :
    (activity_descendants_ids acts root_id).Nodup := by
  obtain ⟨rank, hrank⟩ := hrank
  have h1 := @cteLevel1_ids_nodup acts root_id hids
  have h2 := cteExpand_ids_nodup hids h1
  have h3 := cteExpand_ids_nodup hids h2
  have hr1 : ∀ x ∈ (cteLevel1 acts root_id).map (fun a => a.id),
      rank x = rank root_id := by
    intro x hx
    obtain ⟨a, ha, rfl⟩ := List.mem_map.mp hx
    have h0 := AtRow_rank rank hrank 0 a (mem_cteLevel1.mp ha)
    omega
  have hr2 : ∀ x ∈ (cteExpand acts (cteLevel1 acts root_id)).map (fun a => a.id),
      rank x = rank root_id + 1 := by
    intro x hx
    obtain ⟨a, ha, rfl⟩ := List.mem_map.mp hx
    exact AtRow_rank rank hrank 1 a ((mem_level2_iff acts root_id a).mp ha)
  have hr3 : ∀ x ∈ (cteExpand acts (cteExpand acts (cteLevel1 acts root_id))).map
      (fun a => a.id), rank x = rank root_id + 2 := by
    intro x hx
    obtain ⟨a, ha, rfl⟩ := List.mem_map.mp hx
    exact AtRow_rank rank hrank 2 a ((mem_level3_iff acts root_id a).mp ha)
  unfold activity_descendants_ids
  rw [List.map_append, List.map_append, List.nodup_append, List.nodup_append]
  refine ⟨⟨h1, h2, ?_⟩, h3, ?_⟩
  · intro x hx1 hx2
    have := hr1 x hx1
    have := hr2 x hx2
    omega
  · intro x hx12 hx3
    have := hr3 x hx3
    rcases List.mem_append.mp hx12 with hx | hx
    · have := hr1 x hx
      omega
    · have := hr2 x hx
      omega

/-- C4 witness: the four-level chain has distinct ids and is graded by the
depth function that sends id n to n - 1, so the theorem applies and its
descendant id list is duplicate-free. -/
theorem C4_descendants_nodup_on_forest_witness :
    (sampleActs.map (fun a => a.id)).Nodup ∧
      (∃ rank : ℤ → ℕ, ∀ c p : ℤ, ParentLink sampleActs c p →
        rank c = rank p + 1) ∧
      (activity_descendants_ids sampleActs 1).Nodup := by
  have hrank : ∃ rank : ℤ → ℕ, ∀ c p : ℤ, ParentLink sampleActs c p →
      rank c = rank p + 1 := by
    refine ⟨fun c => (c - 1).toNat, ?_⟩
    rintro c p ⟨a, ha, hc, hp⟩
    simp only [sampleActs, List.mem_cons, List.not_mem_nil, or_false] at ha
    rcases ha with rfl | rfl | rfl | rfl
    · exact absurd hp (by simp)
    all_goals
      subst hc
      injection hp with hp
      subst hp
      decide
  exact ⟨by decide, hrank,
    C4_descendants_nodup_on_forest sampleActs 1 (by decide) hrank⟩

/-- C5: the activity lookup is NotFound exactly on nonexistent activity ids:
when no activity row carries the requested id the service returns the 404
error (never an empty list), and when one does it never returns an error. -/
theorem C5_activity_lookup_notfound_iff (s : Store) (activity_id : ℤ) :
    (activity_exists s.activities activity_id = false →
      organizations_by_activity s activity_id = Except.error 404) ∧
    (activity_exists s.activities activity_id = true →
      ∀ e : Nat, organizations_by_activity s activity_id ≠ Except.error e) := by
  constructor
  · intro h
    simp [organizations_by_activity, h]
  · intro h e
    simp [organizations_by_activity, h]

/-- C5 witness: in the sample store, id 5 does not exist and the lookup is
the 404 error, while id 1 exists and the lookup is not the 404 error. -/
theorem C5_activity_lookup_notfound_iff_witness :
    activity_exists sampleStore.activities 5 = false ∧
      organizations_by_activity sampleStore 5 = Except.error 404 ∧
      activity_exists sampleStore.activities 1 = true ∧
      organizations_by_activity sampleStore 1 ≠ Except.error 404 :=
  ⟨by decide, (C5_activity_lookup_notfound_iff sampleStore 5).1 (by decide),
    by decide, (C5_activity_lookup_notfound_iff sampleStore 1).2 (by decide) 404⟩

/-- C6: the building lookup performs no existence check and can signal no
NotFound outcome (its embedded codomain is a plain list); under referential
integrity of the organization rows, a building id matching no building row
yields the empty list. -/
theorem C6_building_lookup_empty_not_notfound (s : Store) (building_id : ℤ)
    (hfk : ∀ o ∈ s.orgs, ∃ b ∈ s.buildings, b.id = o.building_id)
    (habs : ∀ b ∈ s.buildings, b.id ≠ building_id) :
    organizations_in_building s building_id = [] := by
  unfold organizations_in_building orgs_in_building
  rw [List.filter_eq_nil_iff]
  intro o ho
  simp only [decide_eq_true_eq]
  intro he
  obtain ⟨b, hb, hbid⟩ := hfk o ho
  exact habs b hb (by rw [hbid, he])

/-- C6 witness: the sample store satisfies referential integrity, no
building has id 99, and the lookup for building 99 is the empty list. -/
theorem C6_building_lookup_empty_not_notfound_witness :
    (∀ o ∈ fkStore.orgs, ∃ b ∈ fkStore.buildings, b.id = o.building_id) ∧
      (∀ b ∈ fkStore.buildings, b.id ≠ 99) ∧
      organizations_in_building fkStore 99 = [] := by
  have hfk : ∀ o ∈ fkStore.orgs, ∃ b ∈ fkStore.buildings, b.id = o.building_id := by
    intro o ho
    simp only [fkStore, List.mem_cons, List.not_mem_nil, or_false] at ho
    subst ho
    exact ⟨⟨10, "Main street 1", 0, 0⟩, by simp [fkStore], rfl⟩
  have habs : ∀ b ∈ fkStore.buildings, b.id ≠ 99 := by
    intro b hb
    simp only [fkStore, List.mem_cons, List.not_mem_nil, or_false] at hb
    subst hb
    decide
  exact ⟨hfk, habs,
    C6_building_lookup_empty_not_notfound fkStore 99 hfk habs⟩

lemma orgs_id_inj {orgs : List Org}
    (hids : (orgs.map (fun o => o.id)).Nodup) :
    ∀ a ∈ orgs, ∀ b ∈ orgs, a.id = b.id → a = b :=
  List.inj_on_of_nodup_map hids

/-- C7: over organization rows with pairwise distinct ids, the aggregation
by activity ids returns each organization at most once (its projected id
list has no duplicates) even when an organization is linked to several of
the requested activity ids; membership is exactly linkage to at least one
requested id; and the empty id list yields the empty result with the store
left unqueried. -/
theorem C7_orgs_by_activity_ids_dedup (orgs : List Org) (activity_ids : List ℤ)
    (hids : (orgs.map (fun o => o.id)).Nodup) :
    (((orgs_by_activity_ids orgs activity_ids).1.map (fun o => o.id)).Nodup) ∧
      (∀ o : Org, o ∈ (orgs_by_activity_ids orgs activity_ids).1 ↔
        o ∈ orgs ∧ ∃ aid ∈ o.activity_ids, aid ∈ activity_ids) ∧
      orgs_by_activity_ids orgs [] = ([], false) := by
  refine ⟨?_, ?_, rfl⟩
  · by_cases hemp : activity_ids.isEmpty
    · simp [orgs_by_activity_ids, hemp]
    · rw [orgs_by_activity_ids, if_neg (by simp [hemp])]
      apply List.Nodup.map_on
      · intro x hx y hy hxy
        have hx' : x ∈ orgs := by
          obtain ⟨o', ho', hm⟩ := List.mem_flatMap.mp (List.mem_dedup.mp hx)
          obtain ⟨-, -, rfl⟩ := List.mem_map.mp hm
          exact ho'
        have hy' : y ∈ orgs := by
          obtain ⟨o', ho', hm⟩ := List.mem_flatMap.mp (List.mem_dedup.mp hy)
          obtain ⟨-, -, rfl⟩ := List.mem_map.mp hm
          exact ho'
        exact orgs_id_inj hids x hx' y hy' hxy
      · exact List.nodup_dedup _
  · intro o
    by_cases hemp : activity_ids.isEmpty
    · have : activity_ids = [] := List.isEmpty_iff.mp hemp
      subst this
      simp [orgs_by_activity_ids]
    · rw [orgs_by_activity_ids, if_neg (by simp [hemp])]
      simp only [List.mem_dedup, List.mem_flatMap, List.mem_map, List.mem_filter,
        decide_eq_true_eq]
      constructor
      · rintro ⟨o', ho', aid, ⟨haid, hin⟩, rfl⟩
        exact ⟨ho', aid, haid, hin⟩
      · rintro ⟨ho, aid, haid, hin⟩
        exact ⟨o, ho, aid, ⟨haid, hin⟩, rfl⟩

/-- C7 witness: with two organizations of distinct ids, the first linked to
both requested activity ids, the result lists the first organization exactly
once and its id projection is duplicate-free. -/
theorem C7_orgs_by_activity_ids_dedup_witness :
    (([(⟨1, "A", 10, [], [1, 2]⟩ : Org), ⟨2, "B", 10, [], [3]⟩].map
        (fun o => o.id)).Nodup) ∧
      (orgs_by_activity_ids [(⟨1, "A", 10, [], [1, 2]⟩ : Org), ⟨2, "B", 10, [], [3]⟩]
        [1, 2]).1 = [⟨1, "A", 10, [], [1, 2]⟩] ∧
      (((orgs_by_activity_ids [(⟨1, "A", 10, [], [1, 2]⟩ : Org), ⟨2, "B", 10, [], [3]⟩]
        [1, 2]).1.map (fun o => o.id)).Nodup) :=
  ⟨by decide, by decide,
    (C7_orgs_by_activity_ids_dedup
      [(⟨1, "A", 10, [], [1, 2]⟩ : Org), ⟨2, "B", 10, [], [3]⟩] [1, 2] (by decide)).1⟩

/-- C8 amended: the plain name-substring search builds its payloads without
the activities field, which the output schema requires, so it returns the
empty list on no match but fails validation (propagating an error instead of
any result) as soon as at least one organization matches; the match itself
is the case-insensitive substring containment; and org_to_out, used by the
single-organization and other list endpoints, passes the activities field
and validates successfully whenever the building resolves. -/
theorem C8_search_omits_activities_fails_validation (s : Store) (q : String) :
    (search_orgs_by_name s.orgs q = [] → search_organizations s q = Except.ok []) ∧
    (∀ (o : Org) (rest : List Org), search_orgs_by_name s.orgs q = o :: rest →
      ∃ e : String, search_organizations s q = Except.error e) ∧
    (∀ o : Org, o ∈ search_orgs_by_name s.orgs q ↔
      (o ∈ s.orgs ∧ ilike_contains o.name q = true)) ∧
    (∀ (o : Org) (b : Building), findBuilding s.buildings o.building_id = some b →
      org_to_out s o =
        Except.ok ⟨o.id, o.name, b, o.phones, activityNames s.activities o⟩) := by
  refine ⟨?_, ?_, ?_, ?_⟩
  · intro h
    unfold search_organizations
    rw [h]
    rfl
  · intro o rest h
    unfold search_organizations
    rw [h]
    cases hfb : findBuilding s.buildings o.building_id with
    | none =>
      exact ⟨"building: Field required",
        by simp [mapValidate, search_payload_out, model_validate_org, hfb]⟩
    | some b =>
      exact ⟨"activities: Field required",
        by simp [mapValidate, search_payload_out, model_validate_org, hfb]⟩
  · intro o
    simp [search_orgs_by_name, List.mem_filter]
  · intro o b hfb
    simp [org_to_out, model_validate_org, hfb]

/-- C8 witness: in the sample store, the query Tea matches nothing and the
search returns the empty list, while the query Cafe matches the single
organization named Best Cafe Ever and the search does not return a result. -/
theorem C8_search_omits_activities_fails_validation_witness :
    search_orgs_by_name fkStore.orgs "Tea" = [] ∧
      search_organizations fkStore "Tea" = Except.ok [] ∧
      search_orgs_by_name fkStore.orgs "Cafe" =
        [⟨1, "Best Cafe Ever", 10, ["123"], [1]⟩] ∧
      (search_organizations fkStore "Cafe").isOk = false := by
  have h1 : search_orgs_by_name fkStore.orgs "Tea" = [] := by decide
  have h2 : search_orgs_by_name fkStore.orgs "Cafe" =
      [⟨1, "Best Cafe Ever", 10, ["123"], [1]⟩] := by decide
  refine ⟨h1, (C8_search_omits_activities_fails_validation fkStore "Tea").1 h1, h2, ?_⟩
  obtain ⟨e, he⟩ :=
    (C8_search_omits_activities_fails_validation fkStore "Cafe").2.1 _ _ h2
  rw [he]
  rfl

/-- C8 counterexample: the query Cafe case-insensitively matches the stored
organization Best Cafe Ever, yet the search endpoint produces a required
field validation error about activities rather than a result list that
merely omits the field: the schema declares activities required while the
search payload leaves it out. -/
theorem C8_counterexample_search_error_not_omitted_field :
    ilike_contains "Best Cafe Ever" "Cafe" = true ∧
      search_orgs_by_name fkStore.orgs "Cafe" =
        [⟨1, "Best Cafe Ever", 10, ["123"], [1]⟩] ∧
      search_organizations fkStore "Cafe" =
        Except.error "activities: Field required" := by
  refine ⟨by decide, by decide, ?_⟩
  rfl

lemma geo_radius_eq (s : Store) (lat lon r_m : ℝ) :
    geo_radius s lat lon r_m =
      if ((buildings_in_bbox s.buildings (bbox_for_radius lat lon r_m)).filter
          (fun b => decide (haversine_m lat lon b.lat b.lon ≤ r_m))).isEmpty then
        (⟨[], []⟩, [])
      else
        (⟨(((buildings_in_bbox s.buildings (bbox_for_radius lat lon r_m)).filter
            (fun b => decide (haversine_m lat lon b.lat b.lon ≤ r_m))).map
              (fun b => b.id)).dedup.flatMap (fun bid => orgs_in_building s.orgs bid),
          (buildings_in_bbox s.buildings (bbox_for_radius lat lon r_m)).filter
            (fun b => decide (haversine_m lat lon b.lat b.lon ≤ r_m))⟩,
          (((buildings_in_bbox s.buildings (bbox_for_radius lat lon r_m)).filter
            (fun b => decide (haversine_m lat lon b.lat b.lon ≤ r_m))).map
              (fun b => b.id)).dedup) := rfl

/-- C2: for a positive radius, the buildings returned by the radius search
are exactly the buildings fetched from the bounding box whose haversine
distance to the center is at most the radius; and when no fetched building
passes the exact distance filter, the result is the empty pair and no
organization lookup is performed (the recorded lookup list is empty). -/
theorem C2_geo_radius_exact_filter (s : Store) (lat lon r_m : ℝ) (_hr : 0 < r_m) :
    (∀ b : Building, b ∈ (geo_radius s lat lon r_m).1.buildings ↔
      (b ∈ buildings_in_bbox s.buildings (bbox_for_radius lat lon r_m) ∧
        haversine_m lat lon b.lat b.lon ≤ r_m)) ∧
    ((∀ b ∈ buildings_in_bbox s.buildings (bbox_for_radius lat lon r_m),
        ¬ haversine_m lat lon b.lat b.lon ≤ r_m) →
      geo_radius s lat lon r_m = (⟨[], []⟩, [])) := by
  rw [geo_radius_eq]
  set near := (buildings_in_bbox s.buildings (bbox_for_radius lat lon r_m)).filter
      (fun b => decide (haversine_m lat lon b.lat b.lon ≤ r_m)) with hnear
  by_cases hemp : near.isEmpty
  · rw [if_pos hemp]
    have hnil : near = [] := List.isEmpty_iff.mp hemp
    rw [hnear] at hnil
    have hfilter := List.filter_eq_nil_iff.mp hnil
    constructor
    · intro b
      simp only [List.not_mem_nil, false_iff]
      rintro ⟨hb, hd⟩
      exact hfilter b hb (decide_eq_true hd)
    · intro _
      rfl
  · rw [if_neg hemp]
    constructor
    · intro b
      constructor
      · intro hb
        have hb' : b ∈ near := hb
        rw [hnear, List.mem_filter] at hb'
        exact ⟨hb'.1, of_decide_eq_true hb'.2⟩
      · rintro ⟨hbb, hd⟩
        show b ∈ near
        rw [hnear, List.mem_filter]
        exact ⟨hbb, decide_eq_true hd⟩
    · intro hall
      exfalso
      apply hemp
      have hnil : near = [] := by
        rw [hnear, List.filter_eq_nil_iff]
        intro b hb
        simp only [decide_eq_true_eq]
        exact hall b hb
      rw [hnil]
      rfl

/-- C2 witness: the exact-filter characterization applied to the empty store
at the origin with radius 1, instantiated at a sample building. -/
theorem C2_geo_radius_exact_filter_witness :
    (0:ℝ) < 1 ∧
      ((⟨1, "x", 0, 0⟩ : Building) ∈ (geo_radius ⟨[], [], []⟩ 0 0 1).1.buildings ↔
        ((⟨1, "x", 0, 0⟩ : Building) ∈
            buildings_in_bbox (Store.mk [] [] []).buildings (bbox_for_radius 0 0 1) ∧
          haversine_m 0 0 (⟨1, "x", 0, 0⟩ : Building).lat
            (⟨1, "x", 0, 0⟩ : Building).lon ≤ 1)) :=
  ⟨one_pos, (C2_geo_radius_exact_filter ⟨[], [], []⟩ 0 0 1 one_pos).1 ⟨1, "x", 0, 0⟩⟩
